import Mathlib

/-!
Verification of the job-orchestration core of the `transcriber` web
application (`web_app.py`, `faster_whisper_latin.py`) against its
natural-language specification.

The jobs table (`init_db`, web_app.py) is embedded as a list of rows; every
SQL statement of the relevant handlers is translated to an explicit
function on that list.  External collaborators (yt-dlp, ffmpeg, the
whisper engine, the translator) are oracle inputs.
-/

namespace Transcriber

/-- The five status strings stored in the `status` column
(`queued`, `running`, `completed`, `failed`, `cancelled`). -/
inductive JobStatus where
  | queued
  | running
  | completed
  | failed
  | cancelled
deriving DecidableEq, Repr

/-- Terminal statuses in the sense of the specification glossary
(Completed, Failed or Cancelled). -/
def JobStatus.isTerminal : JobStatus → Bool
  | .completed => true
  | .failed => true
  | .cancelled => true
  | .queued => false
  | .running => false

/-- One row of the `jobs` table as created by `init_db` (web_app.py):
columns `id, url, status, progress, created_at, updated_at, parameters,
result, error, job_type, parent_job_id, video_path`.  Timestamps are
abstracted to naturals. -/
structure JobRow where
  id : String
  url : String
  status : JobStatus
  progress : Int
  createdAt : Nat
  updatedAt : Nat
  parameters : String
  result : Option String
  error : Option String
  jobType : String
  parentJobId : Option String
  videoPath : Option String
deriving DecidableEq, Repr

/-- The `jobs` table. -/
abbrev JobDB := List JobRow

/-- `SELECT * FROM jobs WHERE id = ?` (ids are unique, so the first match). -/
def getJob (db : JobDB) (jobId : String) : Option JobRow :=
  db.find? (fun row => row.id == jobId)

/-- The stored status of a job, if present. -/
def statusOf (db : JobDB) (jobId : String) : Option JobStatus :=
  (getJob db jobId).map (·.status)

/-- The stored progress of a job, if present. -/
def progressOf (db : JobDB) (jobId : String) : Option Int :=
  (getJob db jobId).map (·.progress)

/-- Embeds `update_job_status(job_id, status, progress, result=None,
error=None)` (web_app.py, `def update_job_status`): it executes
`UPDATE jobs SET status=?, progress=?, updated_at=?, result=?, error=?
WHERE id=?` unconditionally, commits, and only logs the affected row
count.  It raises no error for an absent id (zero rows affected) and
performs no check of the current status. -/
def update_job_status (db : JobDB) (jobId : String) (status : JobStatus)
    (progress : Int) (result : Option String) (error : Option String)
    (now : Nat) : JobDB :=
  db.map fun row =>
    if row.id == jobId then
      { row with status := status, progress := progress, updatedAt := now,
                 result := result, error := error }
    else row

theorem getJob_update (db : JobDB) (jobId : String) (s : JobStatus) (p : Int)
    (r e : Option String) (t : Nat) :
    getJob (update_job_status db jobId s p r e t) jobId =
      (getJob db jobId).map (fun row =>
        { row with status := s, progress := p, updatedAt := t,
                   result := r, error := e }) := by
  have hid : ∀ row : JobRow,
      (if row.id == jobId then
        ({ row with status := s, progress := p, updatedAt := t,
                    result := r, error := e } : JobRow)
      else row).id = row.id := by
    intro row; split <;> rfl
  unfold getJob update_job_status
  rw [List.find?_map]
  have hpred : ((fun row : JobRow => row.id == jobId) ∘ fun row =>
      if row.id == jobId then
        ({ row with status := s, progress := p, updatedAt := t,
                    result := r, error := e } : JobRow)
      else row) = fun row : JobRow => row.id == jobId := by
    funext row
    simp only [Function.comp_apply, hid row]
  rw [hpred]
  cases hfind : db.find? (fun row => row.id == jobId) with
  | none => rfl
  | some row =>
    have heq : row.id = jobId := by simpa using List.find?_some hfind
    simp [heq]

theorem update_absent (db : JobDB) (jobId : String) (s : JobStatus) (p : Int)
    (r e : Option String) (t : Nat) (h : getJob db jobId = none) :
    update_job_status db jobId s p r e t = db := by
  have h' : ∀ row ∈ db, ¬ (row.id == jobId) = true := List.find?_eq_none.mp h
  unfold update_job_status
  calc db.map _ = db.map id := List.map_congr_left (fun row hrow => by
        simp [h' row hrow])
    _ = db := List.map_id db

theorem statusOf_update (db : JobDB) (jobId : String) (s : JobStatus) (p : Int)
    (r e : Option String) (t : Nat) :
    statusOf (update_job_status db jobId s p r e t) jobId =
      (getJob db jobId).map (fun _ => s) := by
  unfold statusOf
  rw [getJob_update]
  cases getJob db jobId <;> rfl

theorem progressOf_update (db : JobDB) (jobId : String) (s : JobStatus) (p : Int)
    (r e : Option String) (t : Nat) :
    progressOf (update_job_status db jobId s p r e t) jobId =
      (getJob db jobId).map (fun _ => p) := by
  unfold progressOf
  rw [getJob_update]
  cases getJob db jobId <;> rfl

theorem statusOf_update_isSome (db : JobDB) (jobId : String) (s : JobStatus)
    (p : Int) (r e : Option String) (t : Nat)
    (h : (getJob db jobId).isSome = true) :
    statusOf (update_job_status db jobId s p r e t) jobId = some s := by
  obtain ⟨row, hrow⟩ := Option.isSome_iff_exists.mp h
  rw [statusOf_update, hrow]
  rfl

theorem progressOf_update_isSome (db : JobDB) (jobId : String) (s : JobStatus)
    (p : Int) (r e : Option String) (t : Nat)
    (h : (getJob db jobId).isSome = true) :
    progressOf (update_job_status db jobId s p r e t) jobId = some p := by
  obtain ⟨row, hrow⟩ := Option.isSome_iff_exists.mp h
  rw [progressOf_update, hrow]
  rfl

theorem isSome_update (db : JobDB) (jobId : String) (s : JobStatus) (p : Int)
    (r e : Option String) (t : Nat) :
    (getJob (update_job_status db jobId s p r e t) jobId).isSome
      = (getJob db jobId).isSome := by
  rw [getJob_update]
  cases getJob db jobId <;> rfl

theorem isSome_of_statusOf (db : JobDB) (jobId : String) (st : JobStatus)
    (h : statusOf db jobId = some st) : (getJob db jobId).isSome = true := by
  unfold statusOf at h
  cases hget : getJob db jobId with
  | none => rw [hget] at h; exact absurd h (by simp)
  | some row => rfl

/-- A terminal row used as a concrete store state in counterexamples. -/
def completedRow : JobRow :=
  { id := "j", url := "file://v.mp4", status := .completed, progress := 100,
    createdAt := 0, updatedAt := 0, parameters := "", result := some "done",
    error := none, jobType := "transcribe", parentJobId := none,
    videoPath := none }

/-- C1 counterexample: a job whose stored status is Completed (terminal) is
moved back to Running by a single further `update_job_status` call carrying
status Running — the persisted status regresses and leaves the terminal
state, contradicting the claim. -/
theorem c1_counterexample :
    statusOf [completedRow] "j" = some .completed ∧
    JobStatus.isTerminal .completed = true ∧
    statusOf (update_job_status [completedRow] "j" .running 50 none none 1) "j"
      = some .running := by
  refine ⟨rfl, rfl, ?_⟩
  rfl

/-- C1 (amended): `update_job_status` installs the requested status and
progress unconditionally whenever the job id is present in the store; in
particular a late write carrying status Running after a terminal status
moves the job back to Running, so the persisted status is not
forward-only. -/
theorem update_job_status_unconditional (db : JobDB) (jobId : String)
    (s : JobStatus) (p : Int) (r e : Option String) (t : Nat)
    (h : (getJob db jobId).isSome = true) :
    statusOf (update_job_status db jobId s p r e t) jobId = some s ∧
    progressOf (update_job_status db jobId s p r e t) jobId = some p := by
  obtain ⟨row, hrow⟩ := Option.isSome_iff_exists.mp h
  rw [statusOf_update, progressOf_update, hrow]
  exact ⟨rfl, rfl⟩

/-- C1 witness: the amended theorem applied to a store holding a Completed
job and a late Running write. -/
theorem update_job_status_unconditional_witness :
    (getJob [completedRow] "j").isSome = true ∧
    (statusOf (update_job_status [completedRow] "j" .running 50 none none 1) "j"
        = some .running ∧
      progressOf (update_job_status [completedRow] "j" .running 50 none none 1) "j"
        = some 50) :=
  ⟨by decide, update_job_status_unconditional [completedRow] "j" .running 50
    none none 1 (by decide)⟩

/-- C2 counterexample: the stored status of job `j` is Completed (terminal)
and the caller does not request deletion, yet the status-update call does
not fail and the stored row is changed — contradicting the claim that the
call fails with ConcurrencyError and leaves the row unchanged. -/
theorem c2_counterexample :
    statusOf [completedRow] "j" = some .completed ∧
    JobStatus.isTerminal .completed = true ∧
    update_job_status [completedRow] "j" .running 50 none none 1
      ≠ [completedRow] := by
  refine ⟨rfl, rfl, ?_⟩
  decide

/-- C2 (amended): the store's status update raises neither NotFound nor
ConcurrencyError.  With an id absent from the store it affects zero rows
and leaves the store unchanged; with a stored status that is terminal it
still applies the update and overwrites the row's status and progress. -/
theorem update_job_status_error_free (db : JobDB) (idAbsent idPresent : String)
    (s st : JobStatus) (p : Int) (r e : Option String) (t : Nat)
    (habs : getJob db idAbsent = none)
    (hst : statusOf db idPresent = some st)
    (_hterm : st.isTerminal = true) :
    update_job_status db idAbsent s p r e t = db ∧
    statusOf (update_job_status db idPresent s p r e t) idPresent = some s ∧
    progressOf (update_job_status db idPresent s p r e t) idPresent = some p := by
  refine ⟨update_absent db idAbsent s p r e t habs, ?_, ?_⟩
  · rw [statusOf_update]
    unfold statusOf at hst
    cases hget : getJob db idPresent with
    | none => rw [hget] at hst; exact absurd hst (by simp)
    | some row => rfl
  · rw [progressOf_update]
    unfold statusOf at hst
    cases hget : getJob db idPresent with
    | none => rw [hget] at hst; exact absurd hst (by simp)
    | some row => rfl

/-- C2 witness: the amended theorem applied to a one-row store holding a
Completed job, an absent id `missing`, and a Running update. -/
theorem update_job_status_error_free_witness :
    (getJob [completedRow] "missing" = none ∧
      statusOf [completedRow] "j" = some .completed ∧
      JobStatus.isTerminal .completed = true) ∧
    (update_job_status [completedRow] "missing" .running 50 none none 1
        = [completedRow] ∧
      statusOf (update_job_status [completedRow] "j" .running 50 none none 1) "j"
        = some .running ∧
      progressOf (update_job_status [completedRow] "j" .running 50 none none 1) "j"
        = some 50) :=
  ⟨⟨by decide, by decide, by decide⟩,
    update_job_status_error_free [completedRow] "missing" "j" .running .completed
      50 none none 1 (by decide) (by decide) (by decide)⟩

/-! Cancellation (`cancel_job`, web_app.py) and the runner's dispatch
write.  `cancel_job` first reads the job's status, rejects a missing job
(404) or a non-cancellable status (400), then — after killing any
registered process and deleting WAV files, steps that do not touch the
jobs table — calls `update_job_status(job_id, 'cancelled', 0)`.  The read
and the write are separate database transactions; writes by other threads
can land between them. -/

/-- The status read at the top of `cancel_job`
(`SELECT status, url FROM jobs WHERE id = ?`). -/
def cancel_check (db : JobDB) (jobId : String) : Option JobStatus :=
  statusOf db jobId

/-- The final write of `cancel_job`:
`update_job_status(job_id, 'cancelled', 0)`. -/
def cancel_write (db : JobDB) (jobId : String) (now : Nat) : JobDB :=
  update_job_status db jobId .cancelled 0 none none now

/-- Outcome of the `cancel_job` HTTP handler. -/
inductive CancelResult where
  | notFound
  | invalidState (st : JobStatus)
  | success
deriving DecidableEq, Repr

/-- Embeds `cancel_job(job_id)` (web_app.py) run without interference:
check, then (process kill and WAV cleanup, which leave the table alone),
then the Cancelled write. -/
def cancel_job (db : JobDB) (jobId : String) (now : Nat) :
    CancelResult × JobDB :=
  match cancel_check db jobId with
  | none => (.notFound, db)
  | some st =>
    if st = .queued ∨ st = .running then (.success, cancel_write db jobId now)
    else (.invalidState st, db)

/-- The first write of `run_transcription_job` (web_app.py):
`update_job_status(job_id, 'running', 5, '⚙️ Initializing job...')`,
executed unconditionally — the code between the thread start and this
write never re-reads the job's status. -/
def runner_start (db : JobDB) (jobId : String) (now : Nat) : JobDB :=
  update_job_status db jobId .running 5 (some "Initializing job...") none now

/-- A natural-completion write by a job runner: every success path ends in
`update_job_status(job_id, 'completed', 100, result_message)`
(run_transcription_job, run_translation_job, run_download_job). -/
def runner_complete (db : JobDB) (jobId : String) (resultMsg : String)
    (now : Nat) : JobDB :=
  update_job_status db jobId .completed 100 (some resultMsg) none now

/-- C10: cancelling a job whose stored status is Queued or Running
succeeds and persists status Cancelled together with progress 0,
discarding whatever progress value was previously recorded. -/
theorem cancel_job_resets_progress (db : JobDB) (jobId : String) (now : Nat)
    (st : JobStatus) (hst : statusOf db jobId = some st)
    (hcancellable : st = .queued ∨ st = .running) :
    (cancel_job db jobId now).1 = .success ∧
    statusOf (cancel_job db jobId now).2 jobId = some .cancelled ∧
    progressOf (cancel_job db jobId now).2 jobId = some 0 := by
  have hchk : cancel_check db jobId = some st := hst
  have hsome := isSome_of_statusOf db jobId st hst
  have hred : cancel_job db jobId now
      = (CancelResult.success, cancel_write db jobId now) := by
    unfold cancel_job
    rw [hchk]
    exact if_pos hcancellable
  rw [hred]
  exact ⟨rfl, statusOf_update_isSome db jobId _ _ _ _ _ hsome,
    progressOf_update_isSome db jobId _ _ _ _ _ hsome⟩

/-- A Running row with progress 93, used as a concrete store state. -/
def runningRow : JobRow :=
  { id := "r", url := "file://v.mp4", status := .running, progress := 93,
    createdAt := 0, updatedAt := 0, parameters := "", result := none,
    error := none, jobType := "transcribe", parentJobId := none,
    videoPath := none }

/-- C10 witness: cancelling a Running job recorded at progress 93 yields
status Cancelled and progress 0. -/
theorem cancel_job_resets_progress_witness :
    (statusOf [runningRow] "r" = some .running ∧
      (JobStatus.running = .queued ∨ JobStatus.running = .running)) ∧
    ((cancel_job [runningRow] "r" 1).1 = .success ∧
      statusOf (cancel_job [runningRow] "r" 1).2 "r" = some .cancelled ∧
      progressOf (cancel_job [runningRow] "r" 1).2 "r" = some 0) :=
  ⟨⟨by decide, by decide⟩,
    cancel_job_resets_progress [runningRow] "r" 1 .running (by decide)
      (by decide)⟩

/-- A Queued row used as a concrete store state. -/
def queuedRow : JobRow :=
  { id := "q", url := "file://v.mp4", status := .queued, progress := 0,
    createdAt := 0, updatedAt := 0, parameters := "", result := none,
    error := none, jobType := "transcribe", parentJobId := none,
    videoPath := none }

/-- C7 counterexample: a Queued job is cancelled (status becomes
Cancelled), and afterwards the runner's unconditional initial write — the
runner performs no re-check that the status is still Queued — puts the job
in status Running: the job is observed Running after the cancellation was
processed, contradicting the claim. -/
theorem c7_counterexample :
    statusOf [queuedRow] "q" = some .queued ∧
    (cancel_job [queuedRow] "q" 1).1 = .success ∧
    statusOf (cancel_job [queuedRow] "q" 1).2 "q" = some .cancelled ∧
    statusOf (runner_start (cancel_job [queuedRow] "q" 1).2 "q" 2) "q"
      = some .running := by
  refine ⟨rfl, rfl, rfl, ?_⟩
  rfl

/-- C7 (amended): cancelling a Queued job does persist Cancelled at that
moment, but the runner performs no Queued re-check before its Running
write: whenever the runner's initial write executes after the
cancellation, the job is observed Running afterwards. -/
theorem cancel_queued_no_recheck (db : JobDB) (jobId : String) (t1 t2 : Nat)
    (hst : statusOf db jobId = some .queued) :
    (cancel_job db jobId t1).1 = .success ∧
    statusOf (cancel_job db jobId t1).2 jobId = some .cancelled ∧
    statusOf (runner_start (cancel_job db jobId t1).2 jobId t2) jobId
      = some .running := by
  have hchk : cancel_check db jobId = some .queued := hst
  have hsome := isSome_of_statusOf db jobId .queued hst
  have hred : cancel_job db jobId t1
      = (CancelResult.success, cancel_write db jobId t1) := by
    unfold cancel_job
    rw [hchk]
    exact if_pos (Or.inl rfl)
  rw [hred]
  refine ⟨rfl, statusOf_update_isSome db jobId _ _ _ _ _ hsome, ?_⟩
  exact statusOf_update_isSome _ jobId _ _ _ _ _
    (by show (getJob (update_job_status db jobId .cancelled 0 none none t1)
          jobId).isSome = true
        rw [isSome_update]; exact hsome)

/-- C7 witness: the amended theorem applied to a store holding one Queued
job. -/
theorem cancel_queued_no_recheck_witness :
    statusOf [queuedRow] "q" = some .queued ∧
    ((cancel_job [queuedRow] "q" 1).1 = .success ∧
      statusOf (cancel_job [queuedRow] "q" 1).2 "q" = some .cancelled ∧
      statusOf (runner_start (cancel_job [queuedRow] "q" 1).2 "q" 2) "q"
        = some .running) :=
  ⟨by decide, cancel_queued_no_recheck [queuedRow] "q" 1 2 (by decide)⟩

/-- C4 counterexample: the status check of `cancel_job` passes while the
job is Running; a natural completion write lands before `cancel_job`'s own
write; the job is then observable as Completed, and `cancel_job`'s
subsequent write — not a no-op — moves it to Cancelled.  Both terminal
states are observable in sequence, contradicting the claimed atomic
compare-and-set. -/
theorem c4_counterexample :
    cancel_check [runningRow] "r" = some .running ∧
    statusOf (runner_complete [runningRow] "r" "done" 1) "r"
      = some .completed ∧
    statusOf (cancel_write (runner_complete [runningRow] "r" "done" 1) "r" 2)
      "r" = some .cancelled := by
  refine ⟨rfl, rfl, ?_⟩
  rfl

/-- C4 (amended): the cancellation path is check-then-act, not an atomic
compare-and-set.  Whenever the check observes Running and a natural
completion write executes between the check and the Cancelled write, the
job is first observable as Completed and is then overwritten to Cancelled
with progress 0: the last writer wins, and the two terminal states are
both observable in sequence. -/
theorem cancel_race_last_writer_wins (db : JobDB) (jobId msg : String)
    (t1 t2 : Nat) (hchk : cancel_check db jobId = some .running) :
    statusOf (runner_complete db jobId msg t1) jobId = some .completed ∧
    statusOf (cancel_write (runner_complete db jobId msg t1) jobId t2) jobId
      = some .cancelled ∧
    progressOf (cancel_write (runner_complete db jobId msg t1) jobId t2) jobId
      = some 0 := by
  have hsome := isSome_of_statusOf db jobId .running hchk
  unfold runner_complete cancel_write
  refine ⟨statusOf_update_isSome db jobId _ _ _ _ _ hsome, ?_, ?_⟩
  · exact statusOf_update_isSome _ jobId _ _ _ _ _
      (by rw [isSome_update]; exact hsome)
  · exact progressOf_update_isSome _ jobId _ _ _ _ _
      (by rw [isSome_update]; exact hsome)


/-- C4 witness: the amended theorem applied to a store holding one Running
job, with a completion write interleaved before the cancellation write. -/
theorem cancel_race_last_writer_wins_witness :
    cancel_check [runningRow] "r" = some .running ∧
    (statusOf (runner_complete [runningRow] "r" "done" 1) "r"
        = some .completed ∧
      statusOf (cancel_write (runner_complete [runningRow] "r" "done" 1) "r" 2)
        "r" = some .cancelled ∧
      progressOf (cancel_write (runner_complete [runningRow] "r" "done" 1) "r"
        2) "r" = some 0) :=
  ⟨by decide, cancel_race_last_writer_wins [runningRow] "r" "done" 1 2
    (by decide)⟩

/-! Progress forwarding.  The `progress_callback` closure of
`run_transcription_job`'s direct file path (web_app.py) forwards the
adapter's percent straight into the store. -/

/-- Embeds `progress_callback(percent, message)` (web_app.py, inside
`run_transcription_job`): `update_job_status(job_id, 'running',
int(percent), '🎙️ ' + message)`.  The percent — a Python float, taken
here at integral values, on which `int` is the identity — is forwarded
with no clamping or validation whatsoever. -/
def progress_callback (db : JobDB) (jobId : String) (percent : Int)
    (message : String) (now : Nat) : JobDB :=
  update_job_status db jobId .running percent (some ("🎙️ " ++ message)) none
    now

/-- C8 counterexample: a stage adapter passing percent 150 gets 150
persisted, and passing percent -5 gets -5 persisted — the persisted
progress is not confined to the range from 0 to 100, contradicting the
claimed clamping. -/
theorem c8_counterexample :
    progressOf (progress_callback [runningRow] "r" 150 "m" 1) "r" = some 150 ∧
    ¬ (150 : Int) ≤ 100 ∧
    progressOf (progress_callback [runningRow] "r" (-5) "m" 1) "r" = some (-5) ∧
    ¬ (0 : Int) ≤ -5 := by
  refine ⟨rfl, by decide, rfl, by decide⟩

/-- C8 (amended): the runner performs no clamping: for every percent the
adapter passes, the persisted progress equals that percent exactly (with
status Running), so it lies in the range from 0 to 100 only when the
adapter's own value already does. -/
theorem progress_callback_no_clamp (db : JobDB) (jobId : String)
    (percent : Int) (message : String) (now : Nat)
    (h : (getJob db jobId).isSome = true) :
    progressOf (progress_callback db jobId percent message now) jobId
        = some percent ∧
    statusOf (progress_callback db jobId percent message now) jobId
        = some .running :=
  ⟨progressOf_update_isSome db jobId _ _ _ _ _ h,
    statusOf_update_isSome db jobId _ _ _ _ _ h⟩

/-- C8 witness: the amended theorem applied at percent 150 on a one-row
store. -/
theorem progress_callback_no_clamp_witness :
    (getJob [runningRow] "r").isSome = true ∧
    (progressOf (progress_callback [runningRow] "r" 150 "m" 1) "r"
        = some 150 ∧
      statusOf (progress_callback [runningRow] "r" 150 "m" 1) "r"
        = some .running) :=
  ⟨by decide, progress_callback_no_clamp [runningRow] "r" 150 "m" 1
    (by decide)⟩

/-! Transcription (`transcribe_file`, faster_whisper_latin.py).  The
filesystem is abstracted to the list of existing paths; ffmpeg and the
whisper engine are external collaborators, so the audio-extraction
progress reports (source: between 1 and 3), the per-segment progress
reports (source: between 10 and 90) and the surviving segment count
enter as oracle inputs. -/

/-- `LANGUAGE_SUFFIX_MAP` (faster_whisper_latin.py): Whisper language
codes to two-letter file-suffix codes. -/
def LANGUAGE_SUFFIX_MAP : List (String × String) := [
  ("en", "en"), ("eng", "en"), ("es", "es"), ("spa", "es"),
  ("fr", "fr"), ("fra", "fr"), ("fre", "fr"), ("de", "de"),
  ("deu", "de"), ("ger", "de"), ("it", "it"), ("ita", "it"),
  ("pt", "pt"), ("por", "pt"), ("pl", "pl"), ("pol", "pl"),
  ("tr", "tr"), ("tur", "tr"), ("ru", "ru"), ("rus", "ru"),
  ("nl", "nl"), ("nld", "nl"), ("dut", "nl"), ("cs", "cs"),
  ("ces", "cs"), ("cze", "cs"), ("ar", "ar"), ("ara", "ar"),
  ("zh", "zh"), ("zho", "zh"), ("chi", "zh"), ("ja", "ja"),
  ("jpn", "ja"), ("ko", "ko"), ("kor", "ko"), ("hi", "hi"),
  ("hin", "hi"), ("sv", "sv"), ("swe", "sv"), ("da", "da"),
  ("dan", "da"), ("no", "no"), ("nor", "no"), ("fi", "fi"),
  ("fin", "fi"), ("uk", "uk"), ("ukr", "uk"), ("el", "el"),
  ("ell", "el"), ("gre", "el"), ("ro", "ro"), ("ron", "ro"),
  ("rum", "ro"), ("hu", "hu"), ("hun", "hu"), ("sr", "sr"),
  ("srp", "sr"), ("hr", "hr"), ("hrv", "hr"), ("bg", "bg"),
  ("bul", "bg"), ("sk", "sk"), ("slk", "sk"), ("slo", "sk"),
  ("sl", "sl"), ("slv", "sl"), ("lt", "lt"), ("lit", "lt"),
  ("lv", "lv"), ("lav", "lv"), ("et", "et"), ("est", "et"),
  ("ga", "ga"), ("gle", "ga"), ("vi", "vi"), ("vie", "vi"),
  ("th", "th"), ("tha", "th"), ("id", "id"), ("ind", "id"),
  ("ms", "ms"), ("msa", "ms"), ("may", "ms"), ("he", "he"),
  ("heb", "he"), ("fa", "fa"), ("fas", "fa"), ("per", "fa"),
  ("ca", "ca"), ("cat", "ca")]

/-- `LANGUAGE_SUFFIX_MAP.get(language, language)`. -/
def languageSuffix (language : String) : String :=
  match LANGUAGE_SUFFIX_MAP.find? (fun kv => kv.1 == language) with
  | some kv => kv.2
  | none => language

/-- `os.path.splitext(p)[0]` for ordinary dotted file names: everything
before the last dot, or the whole name when there is no dot. -/
def splitextBase (p : String) : String :=
  match p.data.reverse.dropWhile (fun c => c != '.') with
  | [] => p
  | _ :: rest => String.mk rest.reverse

/-- The default output path computed by `transcribe_file` when none is
passed: `base + "." + lang_suffix + ".srt"`. -/
def defaultOutputPath (inputPath language : String) : String :=
  splitextBase inputPath ++ "." ++ languageSuffix language ++ ".srt"

/-- What a `transcribe_file` call produced. -/
structure TranscribeOutcome where
  fs : List String
  outputPath : String
  segmentCount : Nat
  progressReports : List Int
  engineInvoked : Bool
deriving DecidableEq, Repr

/-- Embeds `transcribe_file` (faster_whisper_latin.py).  `fs` is the set
of existing paths.  Missing input raises FileNotFoundError.  When the
output path already exists the function reports percent 100, performs no
transcription, leaves the filesystem unchanged and returns the existing
path with a segment count of 0.  Otherwise it reports 1 (analyzing),
runs ffmpeg extraction (`preReports`), reports 4 (loading model),
5 (starting), 8 (language detected), 10 (writing), emits the
per-segment reports (`segReports`), reports 95 and finally 100, writes
the output file and returns the surviving segment count. -/
def transcribe_file (fs : List String) (inputPath language : String)
    (outputPathArg : Option String) (preReports segReports : List Int)
    (engineSegments : Nat) : Except String TranscribeOutcome :=
  if fs.contains inputPath then
    let outputPath := outputPathArg.getD (defaultOutputPath inputPath language)
    if fs.contains outputPath then
      .ok { fs := fs, outputPath := outputPath, segmentCount := 0,
            progressReports := [100], engineInvoked := false }
    else
      .ok { fs := outputPath :: fs, outputPath := outputPath,
            segmentCount := engineSegments,
            progressReports := [1] ++ preReports ++ [4, 5, 8, 10]
              ++ segReports ++ [95, 100],
            engineInvoked := true }
  else
    .error "Input file not found"

/-- C9: when the target subtitle output file already exists,
`transcribe_file` performs no transcription (the engine is not invoked),
leaves the filesystem — and so the existing output file — unchanged, and
returns the existing output path paired with a segment count of 0. -/
theorem transcribe_file_skips_existing (fs : List String)
    (inputPath language : String) (preReports segReports : List Int)
    (engineSegments : Nat)
    (hin : fs.contains inputPath = true)
    (hout : fs.contains (defaultOutputPath inputPath language) = true) :
    transcribe_file fs inputPath language none preReports segReports
        engineSegments
      = .ok { fs := fs, outputPath := defaultOutputPath inputPath language,
              segmentCount := 0, progressReports := [100],
              engineInvoked := false } := by
  unfold transcribe_file
  rw [if_pos hin]
  simp only [Option.getD_none]
  rw [if_pos hout]

/-- C9 witness: the theorem applied to a filesystem already holding both
`v.mp4` and its Serbian subtitle `v.sr.srt`. -/
theorem transcribe_file_skips_existing_witness :
    (["v.mp4", "v.sr.srt"].contains "v.mp4" = true ∧
      ["v.mp4", "v.sr.srt"].contains (defaultOutputPath "v.mp4" "sr") = true) ∧
    transcribe_file ["v.mp4", "v.sr.srt"] "v.mp4" "sr" none [2, 3] [20] 7
      = .ok { fs := ["v.mp4", "v.sr.srt"], outputPath := defaultOutputPath
                "v.mp4" "sr", segmentCount := 0, progressReports := [100],
              engineInvoked := false } :=
  ⟨⟨by decide, by decide⟩,
    transcribe_file_skips_existing ["v.mp4", "v.sr.srt"] "v.mp4" "sr" [2, 3]
      [20] 7 (by decide) (by decide)⟩

/-- The `(status, progress)` pairs persisted by `run_transcription_job`
on the direct-call path for an uploaded or existing file (web_app.py):
the unconditional initial `('running', 5)` write, one
`('running', int(percent))` write per `progress_callback` invocation
from `transcribe_file`, then `('completed', 100)` on success or
`('failed', 0)` when the call raised. -/
def run_transcription_direct_writes (fs : List String)
    (inputPath language : String) (preReports segReports : List Int)
    (engineSegments : Nat) : List (JobStatus × Int) :=
  (.running, 5) ::
    match transcribe_file fs inputPath language none preReports segReports
        engineSegments with
    | .ok out => out.progressReports.map (fun p => (.running, p))
        ++ [(.completed, 100)]
    | .error _ => [(.failed, 0)]

/-- C3 counterexample: on a fresh transcription of `v.mp4` the first two
writes persisted while the job's status is Running are progress 5 (the
runner's initialization write) followed by progress 1
(`transcribe_file`'s first report, "Analyzing video...") — two successive
persisted Running progress values where the later is strictly smaller,
contradicting the claim. -/
theorem c3_counterexample :
    (run_transcription_direct_writes ["v.mp4"] "v.mp4" "sr" [] [] 0).take 2
      = [(JobStatus.running, 5), (JobStatus.running, 1)] ∧
    (1 : Int) < 5 := by
  refine ⟨?_, by decide⟩
  rfl

/-- The `(status, progress)` pairs persisted by `run_translation_job`
(web_app.py) on its success path: 10 while reading the subtitle file, 15
before initializing the translator, `15 + int((i / total) * 80)` for the
i-th of `total` segments, 95 while saving, and `('completed', 100)`.
The float expression `int((i / total) * 80)` is embedded as the exact
floor `(i * 80) / total`, which agrees with it at these magnitudes. -/
def run_translation_writes (total : Nat) : List (JobStatus × Int) :=
  [(.running, 10), (.running, 15)]
    ++ (List.range total).map
        (fun i => ((JobStatus.running, ((15 + (i * 80) / total : Nat) : Int))))
    ++ [(.running, 95), (.completed, 100)]

theorem translation_seg_mono (total m : Nat) :
    ((15 + (m * 80) / total : Nat) : Int)
      ≤ ((15 + ((m + 1) * 80) / total : Nat) : Int) := by
  exact_mod_cast Nat.add_le_add_left
    (Nat.div_le_div_right (Nat.mul_le_mul_right 80 (Nat.le_succ m))) 15

theorem translation_seg_le (n : Nat) :
    ((15 + (n * 80) / (n + 1) : Nat) : Int) ≤ 95 := by
  have h1 : (n * 80) / (n + 1) ≤ 80 := by
    calc (n * 80) / (n + 1) ≤ ((n + 1) * 80) / (n + 1) :=
          Nat.div_le_div_right (Nat.mul_le_mul_right 80 (Nat.le_succ n))
      _ = 80 := Nat.mul_div_cancel_left 80 (Nat.succ_pos n)
  exact_mod_cast Nat.add_le_add_left h1 15

/-- C3 (amended): the claimed invariant holds for the translation runner
but not for the transcription runner.  For `run_translation_job`, every
pair of successive persisted progress values over the whole write
sequence — hence in particular while the status is Running — is
non-decreasing, for any number of segments.  For `run_transcription_job`
the invariant fails: its initialization write of progress 5 precedes the
adapter's first report of progress 1 (see the counterexample). -/
theorem run_translation_progress_monotone (total : Nat) :
    List.Chain' (fun a b : JobStatus × Int => a.2 ≤ b.2)
      (run_translation_writes total) := by
  unfold run_translation_writes
  rw [List.chain'_append]
  refine ⟨?_, by simp [List.chain'_cons], ?_⟩
  · rw [List.chain'_append]
    refine ⟨by simp [List.chain'_cons], ?_, ?_⟩
    · rw [List.chain'_map]
      cases total with
      | zero => simp
      | succ n =>
        rw [List.chain'_range_succ]
        intro m _
        exact translation_seg_mono (n + 1) m
    · intro x hx y hy
      simp only [List.getLast?_cons_cons, List.getLast?_singleton,
        Option.mem_def, Option.some_inj] at hx
      subst hx
      cases total with
      | zero => simp at hy
      | succ n =>
        simp only [List.range_succ_eq_map, List.map_cons, List.head?_cons,
          Option.mem_def, Option.some_inj] at hy
        subst hy
        simp
  · intro x hx y hy
    simp only [List.head?_cons, Option.mem_def, Option.some_inj] at hy
    subst hy
    cases total with
    | zero =>
      simp only [List.range_zero, List.map_nil, List.append_nil,
        List.getLast?_cons_cons, List.getLast?_singleton,
        Option.mem_def, Option.some_inj] at hx
      subst hx
      norm_num
    | succ n =>
      rw [List.getLast?_append, List.range_succ, List.map_append] at hx
      simp only [List.map_singleton, List.getLast?_concat, Option.or_some,
        Option.mem_def, Option.some_inj] at hx
      subst hx
      exact translation_seg_le n

/-! Pipeline chaining: child transcription jobs created from a completed
download (Acquire) job (`create_transcription_job`, the completion loop
of `run_download_job`, and the manual
`create_transcription_from_download` handler, web_app.py). -/

/-- The row inserted by `create_transcription_job(parent_job_id,
video_path, parameters)` (web_app.py): a fresh uuid4 id, url
`'file://' + video_path`, status queued, progress at the schema default
0, job_type `transcribe`, and `parent_job_id` / `video_path` set.  The
stage parameters are opaque here. -/
def childRow (parentJobId videoPath newId params : String)
    (now : Nat) : JobRow :=
  { id := newId, url := "file://" ++ videoPath, status := .queued,
    progress := 0, createdAt := now, updatedAt := now, parameters := params,
    result := none, error := none, jobType := "transcribe",
    parentJobId := some parentJobId, videoPath := some videoPath }

/-- Embeds `create_transcription_job` (web_app.py): an unconditional
INSERT of the child row — the function performs no lookup of existing
jobs with the same `video_path`. -/
def create_transcription_job (db : JobDB)
    (parentJobId videoPath newId params : String) (now : Nat) : JobDB :=
  db ++ [childRow parentJobId videoPath newId params now]

/-- Embeds the child-creation loop on the completion path of
`run_download_job` (web_app.py): for each downloaded file, if it exists
on disk (`fs`), create one transcription job; missing files are
skipped.  Fresh uuid4 ids are supplied by `ids`, consumed in order from
index `k`; returns the final table and the created ids. -/
def createChildren (acquireId params : String) (fs : List String)
    (now : Nat) (ids : Nat → String) :
    JobDB → Nat → List String → JobDB × List String
  | db, _, [] => (db, [])
  | db, k, vp :: rest =>
    if fs.contains vp then
      let db' := create_transcription_job db acquireId vp (ids k) params now
      let res := createChildren acquireId params fs now ids db' (k + 1) rest
      (res.1, ids k :: res.2)
    else
      createChildren acquireId params fs now ids db k rest

/-- The child rows such a loop appends for an artifact list. -/
def childRows (acquireId params : String) (now : Nat) (ids : Nat → String) :
    Nat → List String → List JobRow
  | _, [] => []
  | k, vp :: rest =>
    childRow acquireId vp (ids k) params now
      :: childRows acquireId params now ids (k + 1) rest

theorem createChildren_fst (acquireId params : String) (fs : List String)
    (now : Nat) (ids : Nat → String) (arts : List String) :
    ∀ (db : JobDB) (k : Nat), (∀ vp ∈ arts, fs.contains vp = true) →
    (createChildren acquireId params fs now ids db k arts).1
      = db ++ childRows acquireId params now ids k arts := by
  induction arts with
  | nil =>
    intro db k _
    simp [createChildren, childRows]
  | cons vp rest ih =>
    intro db k hall
    have hvp : fs.contains vp = true := hall vp (List.mem_cons_self vp rest)
    unfold createChildren childRows
    rw [if_pos hvp]
    simp only []
    rw [ih _ (k + 1) (fun x hx => hall x (List.mem_cons_of_mem vp hx))]
    simp [create_transcription_job, List.append_assoc]

theorem childRows_length (acquireId params : String) (now : Nat)
    (ids : Nat → String) (arts : List String) :
    ∀ k : Nat,
    (childRows acquireId params now ids k arts).length = arts.length := by
  induction arts with
  | nil => intro k; rfl
  | cons vp rest ih => intro k; simp [childRows, ih (k + 1)]

theorem childRows_get (acquireId params : String) (now : Nat)
    (ids : Nat → String) (arts : List String) :
    ∀ (k i : Nat) (h : i < arts.length)
      (h2 : i < (childRows acquireId params now ids k arts).length),
    (childRows acquireId params now ids k arts).get ⟨i, h2⟩
      = childRow acquireId (arts.get ⟨i, h⟩) (ids (k + i)) params now := by
  induction arts with
  | nil => intro k i h _; exact absurd h (by simp)
  | cons vp rest ih =>
    intro k i h h2
    cases i with
    | zero => simp [childRows]
    | succ j =>
      have hj : j < rest.length := by
        simpa using Nat.lt_of_succ_lt_succ h
      have hj2 : j < (childRows acquireId params now ids (k + 1) rest).length := by
        rw [childRows_length]; exact hj
      simp only [childRows, List.get_cons_succ]
      rw [show k + (j + 1) = (k + 1) + j by omega]
      exact ih (k + 1) j hj hj2

/-- C6: for a completed download (Acquire) job whose produced artifacts
all exist on disk, the completion loop creates exactly one child job per
artifact, appended to the store; the i-th child carries `parent_job_id`
equal to the acquire job's id, `video_path` equal to the i-th artifact,
job type `transcribe` and status queued. -/
theorem run_download_children_per_artifact (acquireId params : String)
    (fs : List String) (now : Nat) (ids : Nat → String) (db : JobDB)
    (arts : List String) (hall : ∀ vp ∈ arts, fs.contains vp = true) :
    (createChildren acquireId params fs now ids db 0 arts).1
        = db ++ childRows acquireId params now ids 0 arts ∧
    (childRows acquireId params now ids 0 arts).length = arts.length ∧
    ∀ (i : Nat) (h : i < arts.length)
      (h2 : i < (childRows acquireId params now ids 0 arts).length),
      ((childRows acquireId params now ids 0 arts).get ⟨i, h2⟩).parentJobId
          = some acquireId ∧
      ((childRows acquireId params now ids 0 arts).get ⟨i, h2⟩).videoPath
          = some (arts.get ⟨i, h⟩) ∧
      ((childRows acquireId params now ids 0 arts).get ⟨i, h2⟩).status
          = .queued ∧
      ((childRows acquireId params now ids 0 arts).get ⟨i, h2⟩).jobType
          = "transcribe" := by
  refine ⟨createChildren_fst acquireId params fs now ids arts db 0 hall,
    childRows_length acquireId params now ids arts 0, ?_⟩
  intro i h h2
  rw [childRows_get acquireId params now ids arts 0 i h h2]
  exact ⟨rfl, rfl, rfl, rfl⟩

/-- A completed download (Acquire) row used as a concrete parent. -/
def downloadRow : JobRow :=
  { id := "d", url := "https://yt/playlist", status := .completed,
    progress := 100, createdAt := 0, updatedAt := 0, parameters := "",
    result := some "ok", error := none, jobType := "download",
    parentJobId := none, videoPath := none }

/-- C6 witness: a download job completing with artifacts `a.mp4` and
`b.mp4`, both on disk, creates exactly two children with the stated
fields. -/
theorem run_download_children_per_artifact_witness :
    (∀ vp ∈ ["a.mp4", "b.mp4"],
      (["a.mp4", "b.mp4"] : List String).contains vp = true) ∧
    ((createChildren "d" "" ["a.mp4", "b.mp4"] 7 (fun _ => "t") [downloadRow]
          0 ["a.mp4", "b.mp4"]).1
        = [downloadRow]
          ++ childRows "d" "" 7 (fun _ => "t") 0 ["a.mp4", "b.mp4"] ∧
      (childRows "d" "" 7 (fun _ => "t") 0 ["a.mp4", "b.mp4"]).length
        = (["a.mp4", "b.mp4"] : List String).length ∧
      ∀ (i : Nat) (h : i < (["a.mp4", "b.mp4"] : List String).length)
        (h2 : i < (childRows "d" "" 7 (fun _ => "t") 0
          ["a.mp4", "b.mp4"]).length),
        ((childRows "d" "" 7 (fun _ => "t") 0 ["a.mp4", "b.mp4"]).get
            ⟨i, h2⟩).parentJobId = some "d" ∧
        ((childRows "d" "" 7 (fun _ => "t") 0 ["a.mp4", "b.mp4"]).get
            ⟨i, h2⟩).videoPath
          = some ((["a.mp4", "b.mp4"] : List String).get ⟨i, h⟩) ∧
        ((childRows "d" "" 7 (fun _ => "t") 0 ["a.mp4", "b.mp4"]).get
            ⟨i, h2⟩).status = .queued ∧
        ((childRows "d" "" 7 (fun _ => "t") 0 ["a.mp4", "b.mp4"]).get
            ⟨i, h2⟩).jobType = "transcribe") :=
  ⟨by decide, run_download_children_per_artifact "d" "" ["a.mp4", "b.mp4"] 7
    (fun _ => "t") [downloadRow] ["a.mp4", "b.mp4"] (by decide)⟩

/-- A file on disk with its modification time, for the directory scan of
`create_transcription_from_download`. -/
structure FSFile where
  path : String
  mtime : Nat
deriving DecidableEq, Repr

/-- The video extensions accepted by the scan
(`file.endswith(('.mp4', '.mkv', '.webm', '.avi', '.mov'))`). -/
def videoExtensions : List String := [".mp4", ".mkv", ".webm", ".avi", ".mov"]

/-- Whether a file name carries one of the accepted video extensions. -/
def hasVideoExt (p : String) : Bool :=
  videoExtensions.any (fun e => e.data.isSuffixOf p.data)

/-- The directory scan of `create_transcription_from_download`
(web_app.py): every video file whose modification time lies within the
last hour (`time.time() - os.path.getmtime(file_path) < 3600`) — a
wall-clock heuristic for "recently downloaded". -/
def recentVideoFiles (fsf : List FSFile) (now : Nat) : List String :=
  (fsf.filter (fun f => hasVideoExt f.path && decide (now - f.mtime < 3600))).map
    (fun f => f.path)

/-- The per-file loop of `create_transcription_from_download`: one
`create_transcription_job` INSERT per scanned file, unconditionally. -/
def createJobsFor (parentId params : String) (now : Nat)
    (ids : Nat → String) :
    JobDB → Nat → List String → JobDB × List String
  | db, _, [] => (db, [])
  | db, k, vp :: rest =>
    let db' := create_transcription_job db parentId vp (ids k) params now
    let res := createJobsFor parentId params now ids db' (k + 1) rest
    (res.1, ids k :: res.2)

/-- Outcome of the `create_transcription_from_download` HTTP handler. -/
inductive CreateTransResult where
  | notFound
  | notDownload
  | notCompleted
  | noVideos
  | created (jobIds : List String)
deriving DecidableEq, Repr

/-- Embeds the `create_transcription_from_download` handler (web_app.py):
look up the job (404 when absent), require job_type `download` and
status completed (400 otherwise), scan for video files modified within
the last hour (404 when none), then create one transcription job per
found file — with no check against existing jobs carrying the same
`video_path`. -/
def create_transcription_from_download (db : JobDB) (jobId : String)
    (fsf : List FSFile) (now : Nat) (ids : Nat → String) :
    CreateTransResult × JobDB :=
  match getJob db jobId with
  | none => (.notFound, db)
  | some job =>
    if job.jobType ≠ "download" then (.notDownload, db)
    else if job.status ≠ JobStatus.completed then (.notCompleted, db)
    else if (recentVideoFiles fsf now).isEmpty then (.noVideos, db)
    else
      (.created (createJobsFor jobId job.parameters now ids db 0
          (recentVideoFiles fsf now)).2,
        (createJobsFor jobId job.parameters now ids db 0
          (recentVideoFiles fsf now)).1)

/-- How many jobs in the store name `parentId` as their parent. -/
def countChildren (db : JobDB) (parentId : String) : Nat :=
  (db.filter (fun r => r.parentJobId == some parentId)).length

theorem createJobsFor_fst (parentId params : String) (now : Nat)
    (ids : Nat → String) (arts : List String) :
    ∀ (db : JobDB) (k : Nat),
    (createJobsFor parentId params now ids db k arts).1
      = db ++ childRows parentId params now ids k arts := by
  induction arts with
  | nil => intro db k; simp [createJobsFor, childRows]
  | cons vp rest ih =>
    intro db k
    unfold createJobsFor childRows
    simp only []
    rw [ih _ (k + 1)]
    simp [create_transcription_job, List.append_assoc]

theorem childRows_parent (acquireId params : String) (now : Nat)
    (ids : Nat → String) (arts : List String) :
    ∀ k : Nat, ∀ row ∈ childRows acquireId params now ids k arts,
      row.parentJobId = some acquireId := by
  induction arts with
  | nil => intro k row h; simp [childRows] at h
  | cons vp rest ih =>
    intro k row h
    simp only [childRows, List.mem_cons] at h
    cases h with
    | inl he => subst he; rfl
    | inr hm => exact ih (k + 1) row hm

theorem countChildren_append_childRows (db : JobDB)
    (parentId params : String) (now : Nat) (ids : Nat → String)
    (arts : List String) (k : Nat) :
    countChildren (db ++ childRows parentId params now ids k arts) parentId
      = countChildren db parentId + arts.length := by
  unfold countChildren
  rw [List.filter_append, List.length_append]
  have hall : ∀ row ∈ childRows parentId params now ids k arts,
      (row.parentJobId == some parentId) = true := by
    intro row hrow
    simp [childRows_parent parentId params now ids arts k row hrow]
  rw [List.filter_eq_self.mpr hall, childRows_length]

/-- C5 counterexample: a download job `d` completed; the scan finds
`a.mp4` (modified 100 s ago, no job references it yet).  A first run of
completion handling creates one child; a second, identical run creates a
second child for the same artifact path — one additional child job, not
zero.  Moreover the selection itself is the wall-clock heuristic the
claim denies: the same file with a modification time 4000 s in the past
is not picked up at all, although no job has its artifact path. -/
theorem c5_counterexample :
    countChildren [downloadRow] "d" = 0 ∧
    countChildren
        (create_transcription_from_download [downloadRow] "d"
          [⟨"a.mp4", 0⟩] 100 (fun _ => "t1")).2 "d" = 1 ∧
    countChildren
        (create_transcription_from_download
          (create_transcription_from_download [downloadRow] "d"
            [⟨"a.mp4", 0⟩] 100 (fun _ => "t1")).2
          "d" [⟨"a.mp4", 0⟩] 101 (fun _ => "t2")).2 "d" = 2 ∧
    recentVideoFiles [⟨"b.mp4", 0⟩] 4000 = [] := by
  exact ⟨rfl, rfl, rfl, rfl⟩

/-- C5 (amended): completion handling for a download (Acquire) job is
not idempotent and is keyed on the wall-clock modification-time
heuristic, not on artifact path: every invocation on a completed
download job whose scan finds at least one video file modified within
the last hour appends one new child job per found file, unconditionally
— re-running it adds that many further children, not zero. -/
theorem create_transcription_from_download_not_idempotent (db : JobDB)
    (jobId : String) (fsf : List FSFile) (now : Nat) (ids : Nat → String)
    (job : JobRow) (hget : getJob db jobId = some job)
    (hdl : job.jobType = "download") (hcs : job.status = .completed)
    (hne : (recentVideoFiles fsf now).isEmpty = false) :
    (create_transcription_from_download db jobId fsf now ids).2
        = db ++ childRows jobId job.parameters now ids 0
            (recentVideoFiles fsf now) ∧
    countChildren
        (create_transcription_from_download db jobId fsf now ids).2 jobId
      = countChildren db jobId + (recentVideoFiles fsf now).length := by
  have hred : (create_transcription_from_download db jobId fsf now ids).2
      = (createJobsFor jobId job.parameters now ids db 0
          (recentVideoFiles fsf now)).1 := by
    unfold create_transcription_from_download
    rw [hget]
    simp [hdl, hcs, hne]
  rw [hred, createJobsFor_fst]
  exact ⟨rfl,
    countChildren_append_childRows db jobId job.parameters now ids
      (recentVideoFiles fsf now) 0⟩

/-- C5 witness: the amended theorem applied to the store holding the
completed download job `d` and a scan finding the single recent file
`a.mp4`. -/
theorem create_transcription_from_download_not_idempotent_witness :
    (getJob [downloadRow] "d" = some downloadRow ∧
      downloadRow.jobType = "download" ∧
      downloadRow.status = .completed ∧
      (recentVideoFiles [⟨"a.mp4", 0⟩] 100).isEmpty = false) ∧
    ((create_transcription_from_download [downloadRow] "d" [⟨"a.mp4", 0⟩]
          100 (fun _ => "t1")).2
        = [downloadRow] ++ childRows "d" downloadRow.parameters 100
            (fun _ => "t1") 0 (recentVideoFiles [⟨"a.mp4", 0⟩] 100) ∧
      countChildren
          (create_transcription_from_download [downloadRow] "d"
            [⟨"a.mp4", 0⟩] 100 (fun _ => "t1")).2 "d"
        = countChildren [downloadRow] "d"
            + (recentVideoFiles [⟨"a.mp4", 0⟩] 100).length) :=
  ⟨⟨by decide, by decide, by decide, by decide⟩,
    create_transcription_from_download_not_idempotent [downloadRow] "d"
      [⟨"a.mp4", 0⟩] 100 (fun _ => "t1") downloadRow (by decide) (by decide)
      (by decide) (by decide)⟩

end Transcriber
